import Mathlib

/-!
Shallow embedding of the `workstation-todo-service` backend
(controllers `src/controllers/todo.ts`, `src/controllers/list.ts`, and the
token-issuance helper `generateUserTokens`), together with theorems settling
the specification claims about it.

Conventions of the embedding:
* The document store is a `List` of documents; `findOneAndUpdate`,
  `findOneAndDelete`, `findOne` and `updateOne` act on the first document
  matching the filter, mirroring the single-document semantics of the
  MongoDB operations the controllers invoke.
* Machine timestamps (`Date` values) are `Int` milliseconds since the Unix
  epoch; `moment` date arithmetic is modelled by explicit civil-calendar
  functions below.
* A controller returns `Except HttpError (response × newStore)`; throwing
  `createError(status, message)` is `Except.error ⟨status, message⟩`, and an
  error leaves the store untouched (the code throws before or instead of a
  store write in every such branch).
-/

namespace TodoApp

/-- Result of a single field validator: `\x7b error: boolean, text?: string \x7d`. -/
structure ValidationResult where
  error : Bool
  text : Option String
deriving Repr, DecidableEq

/-- Error thrown with `createError(status, message)` and mapped by the
centralized error handler onto an HTTP response with that status and a JSON
body carrying `message`. -/
structure HttpError where
  status : Nat
  message : String
deriving Repr, DecidableEq

/-! ### Calendar / `moment` model

The controllers use the `moment` library for dates.  We model a `Date` as
`Int` milliseconds since the Unix epoch and implement the proleptic Gregorian
calendar arithmetic that `moment('MM-DD-YYYY')` parsing and `.add(1, 'd')`
perform. -/

/-- Numeric value of a decimal digit list, `none` when empty or non-numeric.
Models the numeric-field reading done by the `moment` format parser. -/
def charDigits (l : List Char) : Option Nat :=
  if l ≠ [] ∧ l.all (fun c => ('0' ≤ c && c ≤ '9' : Bool)) then
    some (l.foldl (fun acc c => acc * 10 + (c.toNat - '0'.toNat)) 0)
  else none

/-- Gregorian leap-year rule. -/
def isLeapYear (y : Nat) : Bool :=
  (y % 4 == 0 && y % 100 != 0) || y % 400 == 0

/-- Days in month `m` (1-based) of year `y`. -/
def daysInMonth (y m : Nat) : Nat :=
  if m == 2 then (if isLeapYear y then 29 else 28)
  else if m == 4 || m == 6 || m == 9 || m == 11 then 30
  else 31

/-- Splits a character list at `'-'` separators (the separator of the
`MM-DD-YYYY` format). -/
def splitDash : List Char → List (List Char)
  | [] => [[]]
  | c :: cs =>
    if c = '-' then [] :: splitDash cs
    else
      match splitDash cs with
      | [] => [[c]]
      | p :: ps => (c :: p) :: ps

/-- Parse of `moment(s, 'MM-DD-YYYY')`: three dash-separated numeric fields,
month within 1..12 and day within the month; the result is the civil date
`(month, day, year)`.  `moment(...).isValid()` is `(parseMMDDYYYY s).isSome`.
Models the external `moment` library, which the controllers call. -/
def parseMMDDYYYY (s : String) : Option (Nat × Nat × Nat) :=
  match splitDash s.data with
  | [ms, ds, ys] =>
    match charDigits ms, charDigits ds, charDigits ys with
    | some m, some d, some y =>
      if 1 ≤ m ∧ m ≤ 12 ∧ 1 ≤ d ∧ d ≤ daysInMonth y m then some (m, d, y)
      else none
    | _, _, _ => none
  | _ => none

/-- Days before January 1 of year `y` counting from year 1 (proleptic
Gregorian). -/
def daysBeforeYear (y : Nat) : Nat :=
  365 * (y - 1) + (y - 1) / 4 - (y - 1) / 100 + (y - 1) / 400

/-- Days of year `y` that precede month `m`. -/
def daysBeforeMonth (y m : Nat) : Nat :=
  (List.range (m - 1)).foldl (fun acc i => acc + daysInMonth y (i + 1)) 0

/-- Day number of the civil date `y-m-d` counting from year 1. -/
def civilDays (y m d : Nat) : Nat :=
  daysBeforeYear y + daysBeforeMonth y m + (d - 1)

/-- Milliseconds in one day: `moment.add(1, 'd')` adds this amount. -/
def oneDayMillis : Int := 86400000

/-- Timestamp (epoch milliseconds) of midnight starting the day `m-d-y`:
the `Date` produced by `moment(s, 'MM-DD-YYYY').set(\x7bh:0,m:0,s:0\x7d).toDate()`. -/
def startOfDayMillis (m d y : Nat) : Int :=
  ((civilDays y m d : Int) - (civilDays 1970 1 1 : Int)) * oneDayMillis

/-! ### Todo data model (`ITodoDocument`) -/

/-- Priority values. Modelled from the spec: the `@/types/todo` module that
declares `TodoPriority` is not among the provided sources; the spec describes
"priority (enum: NONE/LOW/MEDIUM/HIGH or similar)" and the repository's test
suite submits `priority: 0` on a successful create, so the enum is modelled
as the numeric TypeScript enum `NONE = 0, LOW = 1, MEDIUM = 2, HIGH = 3`. -/
def TodoPriority.values : List Nat := [0, 1, 2, 3]

/-- Numeric value of `TodoPriority.NONE`. -/
def TodoPriority.NONE : Nat := 0

/-- Stored todo document. `_id` and the user/list references are ObjectId
hex strings; `due` is an epoch-millisecond timestamp. -/
structure Todo where
  _id : String
  userId : String
  listId : Option String
  name : String
  notes : Option String
  url : Option String
  due : Int
  priority : Nat
  completed : Bool
deriving Repr, DecidableEq

/-- Check of `Types.ObjectId.isValid` on a string: a 24-character hex
string. -/
def isHexChar (c : Char) : Bool :=
  ('0' ≤ c && c ≤ '9') || ('a' ≤ c && c ≤ 'f') || ('A' ≤ c && c ≤ 'F')

/-- ObjectId validity for a string id. -/
def isValidObjectId (s : String) : Bool :=
  s.data.length == 24 && s.data.all isHexChar

/-! ### GetAllTodos filter construction -/

/-- Condition placed on the `due` field of a todo filter: either the exact
instant equality of the initial conditions object, or the
`\x7b $gte, $lte \x7d` range installed by the `due` query option. -/
inductive DueCond
  | eq (t : Int)
  | range (gte lte : Int)
deriving Repr, DecidableEq

/-- Satisfaction of a due-condition by a timestamp; `$gte`/`$lte` are both
inclusive comparisons. -/
def DueCond.matches : DueCond → Int → Bool
  | .eq t, x => x == t
  | .range g l, x => decide (g ≤ x) && decide (x ≤ l)

/-- Filter (`FilterQuery<ITodoDocument>`) built by `GetAllTodos`: each field
is present (`some`) or absent (`none`, e.g. after the `$unset` of the
`due=all` branch). -/
structure TodoConditions where
  completed : Option Bool
  due : Option DueCond
  listId : Option String
deriving Repr, DecidableEq

/-- Document-store satisfaction of a `GetAllTodos` filter. -/
def TodoConditions.matches (c : TodoConditions) (t : Todo) : Bool :=
  (match c.completed with | none => true | some b => t.completed == b) &&
  (match c.due with | none => true | some d => d.matches t.due) &&
  (match c.listId with | none => true | some l => t.listId == some l)

/-- JavaScript `(req.query.listId as string) || null`: an absent or empty
query parameter becomes `null`. -/
def queryOrNull (o : Option String) : Option String :=
  match o with
  | some s => if s = "" then none else some s
  | none => none

/-- JavaScript `(req.query.due as string) || 'all'`: an absent or empty
`due` query parameter defaults to the string `'all'`. -/
def dueOrAll (o : Option String) : String :=
  match o with
  | some s => if s = "" then "all" else s
  | none => "all"

/-- Filter construction of `TodoController.GetAllTodos` (todo.ts lines
33-82): start from `\x7b completed: false, due: moment().toDate() \x7d`, then
apply the `listId` option (400 on an invalid ObjectId) and the `due` option
(`'all'` unsets `due`; a parseable `MM-DD-YYYY` value becomes a
`$gte`/`$lte` day range; anything else is a 400). `now` is the timestamp of
`moment().toDate()`. -/
def buildGetAllTodosConditions (listIdParam dueParam : Option String)
    (now : Int) : Except HttpError TodoConditions := do
  let start : TodoConditions :=
    { completed := some false, due := some (.eq now), listId := none }
  let listIdOpt := queryOrNull listIdParam
  let dueOpt := dueOrAll dueParam
  let withList ←
    match listIdOpt with
    | none => pure start
    | some lid =>
      if isValidObjectId lid then
        pure { start with listId := some lid }
      else
        throw ⟨400, "Invalid list ID!"⟩
  if dueOpt = "all" then
    pure { withList with due := none }
  else
    match parseMMDDYYYY dueOpt with
    | some (m, d, y) =>
      pure { withList with
              due := some (.range (startOfDayMillis m d y)
                                  (startOfDayMillis m d y + oneDayMillis)) }
    | none => throw ⟨400, "Invalid due option!"⟩

/-- The `GetAllTodos` controller: builds the filter and answers with the
matching documents and their count. -/
def TodoController.GetAllTodos (listIdParam dueParam : Option String)
    (now : Int) (store : List Todo) :
    Except HttpError (Nat × List Todo) := do
  let conditions ← buildGetAllTodosConditions listIdParam dueParam now
  let todos := store.filter conditions.matches
  pure (todos.length, todos)

/-! ### Todo validator

Modelled from the spec: the `@/utils/validator` module is not among the
provided sources.  The spec describes each field validator as a pure check
returning `\x7b error: boolean, text?: string \x7d` over "string length, enum
membership, ObjectId format", with the todo's name required non-empty,
notes/url optional, and priority constrained to the enum. -/

/-- Validation passed. -/
def vOk : ValidationResult := ⟨false, none⟩

/-- Validation failed with message `t`. -/
def vErr (t : String) : ValidationResult := ⟨true, some t⟩

/-- Modelled from the spec: ObjectId-format check of a todo id. -/
def TodoValidator.Id (s : String) : ValidationResult :=
  if isValidObjectId s then vOk else vErr "Invalid todo ID!"

/-- Modelled from the spec: ObjectId-format check of the owning user id. -/
def TodoValidator.UserId (s : String) : ValidationResult :=
  if isValidObjectId s then vOk else vErr "Invalid user ID!"

/-- Modelled from the spec: the optional list reference is `null` or an
ObjectId. -/
def TodoValidator.ListId (s : Option String) : ValidationResult :=
  match s with
  | none => vOk
  | some lid => if isValidObjectId lid then vOk else vErr "Invalid list ID!"

/-- Modelled from the spec: the todo name is required non-empty. -/
def TodoValidator.Name (s : String) : ValidationResult :=
  if s = "" then vErr "Todo name cannot be empty!" else vOk

/-- Modelled from the spec: notes are optional free text. -/
def TodoValidator.Notes (_ : Option String) : ValidationResult := vOk

/-- Modelled from the spec: the url is optional free text. -/
def TodoValidator.URL (_ : Option String) : ValidationResult := vOk

/-- Modelled from the spec: the due timestamp is a date (the embedding's
`Int` timestamps are always valid dates). -/
def TodoValidator.Due (_ : Int) : ValidationResult := vOk

/-- Modelled from the spec: enum-membership check of the priority. -/
def TodoValidator.Priority (p : Nat) : ValidationResult :=
  if p ∈ TodoPriority.values then vOk else vErr "Invalid priority option!"

/-! ### Todo store operations -/

/-- Filter of a single-document todo mutation: always an `_id` condition,
and optionally a `userId` condition (the todo controllers never add one). -/
structure TodoMutationFilter where
  _id : String
  userId : Option String
deriving Repr, DecidableEq

/-- Document satisfaction of a mutation filter. -/
def TodoMutationFilter.matches (f : TodoMutationFilter) (t : Todo) : Bool :=
  t._id == f._id &&
  (match f.userId with | none => true | some u => t.userId == u)

/-- Model of `Todo.findOneAndUpdate(filter, update, \x7b new: true \x7d)`: the
first matching document is replaced by its update and returned; `none` when
no document matches. -/
def findOneAndUpdate (f : TodoMutationFilter) (upd : Todo → Todo) :
    List Todo → Option Todo × List Todo
  | [] => (none, [])
  | t :: ts =>
    if f.matches t then (some (upd t), upd t :: ts)
    else
      let r := findOneAndUpdate f upd ts
      (r.1, t :: r.2)

/-- Model of `Todo.findOneAndDelete(filter)`: the first matching document is
removed and returned. -/
def findOneAndDelete (f : TodoMutationFilter) :
    List Todo → Option Todo × List Todo
  | [] => (none, [])
  | t :: ts =>
    if f.matches t then (some t, ts)
    else
      let r := findOneAndDelete f ts
      (r.1, t :: r.2)

/-! ### Todo mutation controllers -/

/-- Authenticated request context: the middleware attaches the signed-in
user to every request; `_id` is the user's ObjectId hex string
(`userId.toHexString()`). -/
structure ReqUser where
  _id : String
deriving Repr, DecidableEq

/-- Successful JSON response of a single-todo operation. -/
structure TodoResponse where
  status : Nat
  message : String
  todo : Todo
deriving Repr, DecidableEq

/-- The 404 message the todo controllers produce for an unmatched id. -/
def todoNotFoundMessage (_id : String) : String :=
  "Todo with ID " ++ _id ++ " is not found!"

/-- Form data of `UpdateTodo` (request body plus the authenticated user). -/
structure UpdateTodoFormData where
  _id : String
  userId : String
  listId : Option String
  name : String
  notes : Option String
  url : Option String
  due : Int
  priority : Nat
deriving Repr, DecidableEq

/-- Validation map of `UpdateTodo`; valid iff every field's `error` is
`false`. -/
def updateTodoValidations (f : UpdateTodoFormData) : List ValidationResult :=
  [TodoValidator.Id f._id,
   TodoValidator.UserId f.userId,
   TodoValidator.ListId f.listId,
   TodoValidator.Name f.name,
   TodoValidator.Notes f.notes,
   TodoValidator.URL f.url,
   TodoValidator.Due f.due,
   TodoValidator.Priority f.priority]

/-- JavaScript `Object.values(validations).every((v) => v.error === false)`. -/
def allValid (vs : List ValidationResult) : Bool :=
  vs.all (fun v => v.error == false)

/-- Filter of the `UpdateTodo` find-and-modify: only the `_id` condition. -/
def UpdateTodoFilter (_id : String) : TodoMutationFilter := ⟨_id, none⟩

/-- The `UpdateTodo` controller (todo.ts lines 146-210).  `body` carries the
request-body fields; the form's `userId` is the authenticated user's id, and
the update document overwrites every field of the matched todo — including
`userId` — from the form.  JavaScript `req.body.priority || TodoPriority.NONE`
replaces a falsy (absent or `0`) body priority by `NONE`. -/
def TodoController.UpdateTodo (user : ReqUser) (_id : String)
    (listId : Option String) (name : String) (notes url : Option String)
    (due : Int) (priority : Option Nat) (store : List Todo) :
    Except HttpError (TodoResponse × List Todo) :=
  let formData : UpdateTodoFormData :=
    { _id := _id
      userId := user._id
      listId := listId
      name := name
      notes := notes
      url := url
      due := due
      priority := match priority with
                  | none => TodoPriority.NONE
                  | some p => if p == 0 then TodoPriority.NONE else p }
  if allValid (updateTodoValidations formData) then
    match findOneAndUpdate (UpdateTodoFilter formData._id)
        (fun t => { t with
                    listId := formData.listId
                    userId := formData.userId
                    name := formData.name
                    notes := formData.notes
                    url := formData.url
                    due := formData.due
                    priority := formData.priority }) store with
    | (none, _) => .error ⟨404, todoNotFoundMessage formData._id⟩
    | (some t, store') =>
      .ok (⟨200, "Updated \"" ++ t.name ++ "\"", t⟩, store')
  else
    .error ⟨400, "Validations failed"⟩

/-- Filter of the `CompleteTodo` find-and-modify: only the `_id` condition. -/
def CompleteTodoFilter (_id : String) : TodoMutationFilter := ⟨_id, none⟩

/-- The `CompleteTodo` controller (todo.ts lines 212-251): validate the id,
set `completed: true` on the matched todo, 404 when none matches. -/
def TodoController.CompleteTodo (user : ReqUser) (_id : String)
    (store : List Todo) : Except HttpError (TodoResponse × List Todo) :=
  let validation := TodoValidator.Id _id
  if validation.error then
    .error ⟨400, (validation.text).getD ""⟩
  else
    match findOneAndUpdate (CompleteTodoFilter _id)
        (fun t => { t with completed := true }) store with
    | (none, _) => .error ⟨404, todoNotFoundMessage _id⟩
    | (some t, store') =>
      .ok (⟨200, "Completed \"" ++ t.name ++ "\"", t⟩, store')

/-- Filter of the `UncompleteTodo` find-and-modify: only the `_id`
condition. -/
def UncompleteTodoFilter (_id : String) : TodoMutationFilter := ⟨_id, none⟩

/-- The `UncompleteTodo` controller (todo.ts lines 253-288): validate the
id, set `completed: false` on the matched todo, 404 when none matches. -/
def TodoController.UncompleteTodo (user : ReqUser) (_id : String)
    (store : List Todo) : Except HttpError (TodoResponse × List Todo) :=
  let validation := TodoValidator.Id _id
  if validation.error then
    .error ⟨400, (validation.text).getD ""⟩
  else
    match findOneAndUpdate (UncompleteTodoFilter _id)
        (fun t => { t with completed := false }) store with
    | (none, _) => .error ⟨404, todoNotFoundMessage _id⟩
    | (some t, store') =>
      .ok (⟨200, "Uncompleted \"" ++ t.name ++ "\"", t⟩, store')

/-- JavaScript falsiness of the `req.body.priority` value (`undefined`,
`null` or the number `0`). -/
def jsFalsyNat : Option Nat → Bool
  | none => true
  | some n => n == 0

/-- Filter of the `UpdateTodoPriority` find-and-modify: only the `_id`
condition. -/
def UpdateTodoPriorityFilter (_id : String) : TodoMutationFilter := ⟨_id, none⟩

/-- The `UpdateTodoPriority` controller (todo.ts lines 290-341): validate
the id, reject a falsy body priority with 400 `Priority cannot be empty!`,
reject a value outside the enum with 400 `Invalid priority option!`, then
set the priority on the matched todo. -/
def TodoController.UpdateTodoPriority (user : ReqUser) (_id : String)
    (priority : Option Nat) (store : List Todo) :
    Except HttpError (TodoResponse × List Todo) :=
  let validation := TodoValidator.Id _id
  if validation.error then
    .error ⟨400, (validation.text).getD ""⟩
  else if jsFalsyNat priority then
    .error ⟨400, "Priority cannot be empty!"⟩
  else
    match priority with
    | none => .error ⟨400, "Priority cannot be empty!"⟩
    | some p =>
      if p ∉ TodoPriority.values then
        .error ⟨400, "Invalid priority option!"⟩
      else
        match findOneAndUpdate (UpdateTodoPriorityFilter _id)
            (fun t => { t with priority := p }) store with
        | (none, _) => .error ⟨404, todoNotFoundMessage _id⟩
        | (some t, store') =>
          .ok (⟨200, "Updated \"" ++ t.name ++ "\" priority!", t⟩, store')

/-- Filter of the `UpdateTodoList` find-and-modify: only the `_id`
condition. -/
def UpdateTodoListFilter (_id : String) : TodoMutationFilter := ⟨_id, none⟩

/-- The `UpdateTodoList` controller (todo.ts lines 343-390): validate the
id and the body `listId`, then set the list reference on the matched
todo. -/
def TodoController.UpdateTodoList (user : ReqUser) (_id : String)
    (listId : Option String) (store : List Todo) :
    Except HttpError (TodoResponse × List Todo) :=
  let validation := TodoValidator.Id _id
  if validation.error then
    .error ⟨400, (validation.text).getD ""⟩
  else
    let listIdValidation := TodoValidator.ListId listId
    if listIdValidation.error then
      .error ⟨400, (listIdValidation.text).getD ""⟩
    else
      match findOneAndUpdate (UpdateTodoListFilter _id)
          (fun t => { t with listId := listId }) store with
      | (none, _) => .error ⟨404, todoNotFoundMessage _id⟩
      | (some t, store') =>
        .ok (⟨200, "Updated \"" ++ t.name ++ "\" list!", t⟩, store')

/-- Filter of the `DeleteTodo` find-and-delete: only the `_id` condition. -/
def DeleteTodoFilter (_id : String) : TodoMutationFilter := ⟨_id, none⟩

/-- The `DeleteTodo` controller (todo.ts lines 392-421): validate the id,
delete the matched todo, 404 when none matches. -/
def TodoController.DeleteTodo (user : ReqUser) (_id : String)
    (store : List Todo) : Except HttpError (TodoResponse × List Todo) :=
  let validation := TodoValidator.Id _id
  if validation.error then
    .error ⟨400, (validation.text).getD ""⟩
  else
    match findOneAndDelete (DeleteTodoFilter _id) store with
    | (none, _) => .error ⟨404, todoNotFoundMessage _id⟩
    | (some t, store') =>
      .ok (⟨200, "Deleted \"" ++ t.name ++ "\"", t⟩, store')

/-! ### List data model (`IListDocument`) and controller -/

/-- Stored list document.  The controller sorts by a `due` field, so the
embedding carries one (the list schema itself is not among the provided
sources). -/
structure IListDocument where
  _id : String
  userId : String
  name : String
  color : String
  due : Int
deriving Repr, DecidableEq

/-- Query options of a `find` call: `\x7b limit, skip, sort: \x7b due \x7d \x7d`;
`sortDue = -1` is the descending sort the code requests. -/
structure QueryOptions where
  limit : Nat
  skip : Nat
  sortDue : Int
deriving Repr, DecidableEq

/-- The fixed options object of `GetAllLists` (list.ts lines 30-36). -/
def getAllListsOptions : QueryOptions :=
  { limit := 100, skip := 0, sortDue := -1 }

/-- Descending order on the `due` field. -/
def dueDesc (a b : IListDocument) : Prop := b.due ≤ a.due

instance : DecidableRel dueDesc :=
  fun a b => inferInstanceAs (Decidable (b.due ≤ a.due))

instance : IsTotal IListDocument dueDesc :=
  ⟨fun a b => le_total b.due a.due⟩

instance : IsTrans IListDocument dueDesc :=
  ⟨fun _ _ _ hab hbc => le_trans hbc hab⟩

/-- Sort step of a `find` with a `\x7b due: sortDue \x7d` sort spec: `-1`
sorts descending by `due`. -/
def sortByDue (sortDue : Int) (l : List IListDocument) : List IListDocument :=
  if sortDue = -1 then List.insertionSort dueDesc l else l

/-- Model of `List.find(conditions, null, options)`: filter, sort, skip,
limit. -/
def listFind (cond : IListDocument → Bool) (opts : QueryOptions)
    (store : List IListDocument) : List IListDocument :=
  ((sortByDue opts.sortDue (store.filter cond)).drop opts.skip).take opts.limit

/-- The `GetAllLists` controller (list.ts lines 22-55): fixed options,
conditions `\x7b userId \x7d`, and a response of the matching count plus the
found page.  `queryParams` carries the raw request query string pairs; the
controller reads none of them. -/
def ListController.GetAllLists (user : ReqUser)
    (queryParams : List (String × String)) (store : List IListDocument) :
    Nat × List IListDocument :=
  let conditionsMatch := fun (l : IListDocument) => l.userId == user._id
  let total := (store.filter conditionsMatch).length
  let lists := listFind conditionsMatch getAllListsOptions store
  (total, lists)

/-- Modelled from the spec: ObjectId-format check of a list id (the
`@/utils/validator` module is not among the provided sources). -/
def ListValidator.Id (s : String) : ValidationResult :=
  if isValidObjectId s then vOk else vErr "Invalid list ID!"

/-- Modelled from the spec: ObjectId-format check of the owning user id. -/
def ListValidator.UserId (s : String) : ValidationResult :=
  if isValidObjectId s then vOk else vErr "Invalid user ID!"

/-- Modelled from the spec: the list name is required non-empty. -/
def ListValidator.Name (s : String) : ValidationResult :=
  if s = "" then vErr "List name cannot be empty!" else vOk

/-- Modelled from the spec: the color is free text. -/
def ListValidator.Color (_ : String) : ValidationResult := vOk

/-- Filter of a single-document list mutation: the `$and` of an `_id`
condition and a `userId` condition (both always present in the list
controller). -/
structure ListMutationFilter where
  _id : String
  userId : String
deriving Repr, DecidableEq

/-- Document satisfaction of a list mutation filter. -/
def ListMutationFilter.matches (f : ListMutationFilter)
    (l : IListDocument) : Bool :=
  l._id == f._id && l.userId == f.userId

/-- Model of `List.findOneAndUpdate(filter, update, \x7b new: true \x7d)`. -/
def listFindOneAndUpdate (f : ListMutationFilter)
    (upd : IListDocument → IListDocument) :
    List IListDocument → Option IListDocument × List IListDocument
  | [] => (none, [])
  | l :: ls =>
    if f.matches l then (some (upd l), upd l :: ls)
    else
      let r := listFindOneAndUpdate f upd ls
      (r.1, l :: r.2)

/-- Model of `List.findOneAndDelete(filter)`. -/
def listFindOneAndDelete (f : ListMutationFilter) :
    List IListDocument → Option IListDocument × List IListDocument
  | [] => (none, [])
  | l :: ls =>
    if f.matches l then (some l, ls)
    else
      let r := listFindOneAndDelete f ls
      (r.1, l :: r.2)

/-- Successful JSON response of a single-list operation. -/
structure ListResponse where
  status : Nat
  list : IListDocument
deriving Repr, DecidableEq

/-- Filter of the `UpdateList` find-and-modify: `$and` of `_id` and the
authenticated user's id. -/
def UpdateListFilter (_id userId : String) : ListMutationFilter :=
  ⟨_id, userId⟩

/-- The `UpdateList` controller (list.ts lines 91-145): validate the form,
update name and color of the list matching both `_id` and the requester's
`userId`, 404 when none matches. -/
def ListController.UpdateList (user : ReqUser) (_id : String)
    (name color : String) (store : List IListDocument) :
    Except HttpError (ListResponse × List IListDocument) :=
  let validations :=
    [ListValidator.Id _id,
     ListValidator.UserId user._id,
     ListValidator.Name name,
     ListValidator.Color color]
  if allValid validations then
    match listFindOneAndUpdate (UpdateListFilter _id user._id)
        (fun l => { l with name := name, color := color }) store with
    | (none, _) =>
      .error ⟨404, "List with ID " ++ _id ++ " is not found!"⟩
    | (some l, store') => .ok (⟨200, l⟩, store')
  else
    .error ⟨400, "Please correct list validations!"⟩

/-- Filter of the `DeleteList` find-and-delete: `$and` of `_id` and the
authenticated user's id. -/
def DeleteListFilter (_id userId : String) : ListMutationFilter :=
  ⟨_id, userId⟩

/-- The `DeleteList` controller (list.ts lines 147-182): validate the id,
delete the list matching both `_id` and the requester's `userId`, 404 when
none matches. -/
def ListController.DeleteList (user : ReqUser) (_id : String)
    (store : List IListDocument) :
    Except HttpError (ListResponse × List IListDocument) :=
  let validation := ListValidator.Id _id
  if validation.error then
    .error ⟨400, (validation.text).getD ""⟩
  else
    match listFindOneAndDelete (DeleteListFilter _id user._id) store with
    | (none, _) =>
      .error ⟨404, "List with ID " ++ _id ++ " is not found!"⟩
    | (some l, store') => .ok (⟨200, l⟩, store')

/-! ### User model and token issuance (`generateUserTokens`) -/

/-- Stored user document; `refreshTokens` is the collection of issued
refresh tokens. -/
structure IUser where
  username : String
  firstName : String
  lastName : String
  email : String
  refreshTokens : List String
deriving Repr, DecidableEq

/-- Model of `User.findOne(\x7b username \x7d)`: first user with the given
username. -/
def findOneUser (username : String) : List IUser → Option IUser
  | [] => none
  | u :: us => if u.username == username then some u else findOneUser username us

/-- Model of `User.updateOne(\x7b username \x7d, \x7b refreshTokens \x7d)`:
replaces the token list of the first user with the given username. -/
def updateOneRefreshTokens (username : String) (tokens : List String) :
    List IUser → List IUser
  | [] => []
  | u :: us =>
    if u.username == username then { u with refreshTokens := tokens } :: us
    else u :: updateOneRefreshTokens username tokens us

/-- Token pair returned by a successful issuance. -/
structure UserTokens where
  accessToken : String
  refreshToken : String
deriving Repr, DecidableEq

/-- The `generateUserTokens` helper: signs an access token over the profile
claims and a refresh token over the username, appends the refresh token to
the found user's stored list (JavaScript `Array.concat` with a single
string appends one element) and persists via `updateOne`.  `sign` stands
for the external `jsonwebtoken.sign` with its secret; a missing user makes
the body throw and the call reject. -/
def generateUserTokens (sign : String → String → String)
    (accessSecret refreshSecret : String) (userData : IUser)
    (users : List IUser) : Except String (UserTokens × List IUser) :=
  let accessToken := sign (userData.firstName ++ "|" ++ userData.lastName ++
    "|" ++ userData.username ++ "|" ++ userData.email) accessSecret
  let refreshToken := sign userData.username refreshSecret
  match findOneUser userData.username users with
  | none => .error "GenerateUserTokensError"
  | some foundUser =>
    let newRefreshTokens := foundUser.refreshTokens ++ [refreshToken]
    .ok (⟨accessToken, refreshToken⟩,
         updateOneRefreshTokens userData.username newRefreshTokens users)

/-- Decidable equality of controller results, so that concrete runs can be
checked by `decide`. -/
instance {ε α : Type} [DecidableEq ε] [DecidableEq α] : DecidableEq (Except ε α) :=
  fun x y =>
    match x, y with
    | .ok a, .ok b =>
      if h : a = b then isTrue (by rw [h])
      else isFalse (fun hc => h (Except.ok.inj hc))
    | .error a, .error b =>
      if h : a = b then isTrue (by rw [h])
      else isFalse (fun hc => h (Except.error.inj hc))
    | .ok _, .error _ => isFalse (fun hc => Except.noConfusion hc)
    | .error _, .ok _ => isFalse (fun hc => Except.noConfusion hc)

/-! ### Store-operation lemmas -/

/-- A mutation filter only inspects `_id` and `userId`, so toggling the
`completed` flag does not change whether a document matches. -/
theorem matches_set_completed (f : TodoMutationFilter) (t : Todo) (c : Bool) :
    f.matches { t with completed := c } = f.matches t := rfl

/-- Characterization of a successful `findOneAndUpdate`: the returned
document is the update of a matching member of the store, and it is stored
in the new store. -/
theorem findOneAndUpdate_some_mem (f : TodoMutationFilter) (g : Todo → Todo) :
    ∀ (store : List Todo) (t : Todo) (store' : List Todo),
      findOneAndUpdate f g store = (some t, store') →
      ∃ t₀, t₀ ∈ store ∧ f.matches t₀ = true ∧ t = g t₀ ∧ t ∈ store'
  | [], t, store', h => by simp [findOneAndUpdate] at h
  | t₀ :: ts, t, store', h => by
    by_cases hm : f.matches t₀
    · rw [findOneAndUpdate, if_pos hm] at h
      injection h with h1 h2
      injection h1 with h1
      exact ⟨t₀, List.mem_cons_self _ _, hm, h1.symm, by
        rw [← h2, h1]; exact List.mem_cons_self _ _⟩
    · rw [findOneAndUpdate, if_neg hm] at h
      injection h with h1 h2
      obtain ⟨t₁, ht₁, hmt₁, hgt₁, hmem⟩ :=
        findOneAndUpdate_some_mem f g ts t (findOneAndUpdate f g ts).2
          (by rw [← h1])
      exact ⟨t₁, List.mem_cons_of_mem _ ht₁, hmt₁, hgt₁, by
        rw [← h2]; exact List.mem_cons_of_mem _ hmem⟩

/-- When some member of the store matches, `findOneAndUpdate` succeeds. -/
theorem findOneAndUpdate_of_mem (f : TodoMutationFilter) (g : Todo → Todo) :
    ∀ (store : List Todo), (∃ x ∈ store, f.matches x = true) →
      ∃ t store', findOneAndUpdate f g store = (some t, store')
  | [], h => by simp at h
  | t₀ :: ts, h => by
    by_cases hm : f.matches t₀
    · exact ⟨g t₀, g t₀ :: ts, by rw [findOneAndUpdate, if_pos hm]⟩
    · obtain ⟨x, hx, hmx⟩ := h
      rcases List.mem_cons.mp hx with hx | hx
      · exact absurd (hx ▸ hmx) (by simpa using hm)
      · obtain ⟨t, store', hts⟩ := findOneAndUpdate_of_mem f g ts ⟨x, hx, hmx⟩
        exact ⟨t, t₀ :: store', by rw [findOneAndUpdate, if_neg hm, hts]⟩

/-- Applying the complete-update through `findOneAndUpdate` twice returns
the same document and the same store as applying it once. -/
theorem findOneAndUpdate_complete_idem (f : TodoMutationFilter) :
    ∀ (store : List Todo) (t : Todo) (store' : List Todo),
      findOneAndUpdate f (fun x => { x with completed := true }) store =
        (some t, store') →
      findOneAndUpdate f (fun x => { x with completed := true }) store' =
        (some t, store')
  | [], t, store', h => by simp [findOneAndUpdate] at h
  | t₀ :: ts, t, store', h => by
    by_cases hm : f.matches t₀
    · rw [findOneAndUpdate, if_pos hm] at h
      injection h with h1 h2
      injection h1 with h1
      subst h2
      rw [findOneAndUpdate, if_pos (by rw [matches_set_completed]; exact hm)]
      rw [← h1]
    · rw [findOneAndUpdate, if_neg hm] at h
      injection h with h1 h2
      have ih := findOneAndUpdate_complete_idem f ts t
        (findOneAndUpdate f (fun x => { x with completed := true }) ts).2
        (by rw [← h1])
      rw [← h2, findOneAndUpdate, if_neg hm, ih]

/-! ### Claim C1 -/

/-- C1 counterexample: a `GetAllTodos` request with no query parameters
builds a filter with NO due condition (the absent `due` parameter defaults
to `'all'`, whose branch `$unset`s the `due` key), and the response can
contain a todo due long before today: with `now` at the start of
2021-01-02, a non-completed todo due at the epoch (1970-01-01, more than a
full day earlier) is returned.  This refutes the claim that the filter
contains a due-date condition restricting results to todos due today. -/
theorem C1_counterexample :
    buildGetAllTodosConditions none none 1609545600000 =
      .ok { completed := some false, due := none, listId := none } ∧
    TodoController.GetAllTodos none none 1609545600000
      [{ _id := "aaaaaaaaaaaaaaaaaaaaaaaa", userId := "bbbbbbbbbbbbbbbbbbbbbbbb",
         listId := none, name := "old todo", notes := none, url := none,
         due := 0, priority := 0, completed := false }] =
      .ok (1,
        [{ _id := "aaaaaaaaaaaaaaaaaaaaaaaa", userId := "bbbbbbbbbbbbbbbbbbbbbbbb",
           listId := none, name := "old todo", notes := none, url := none,
           due := 0, priority := 0, completed := false }]) ∧
    (0 : Int) + oneDayMillis ≤ 1609545600000 := by
  decide

/-- C1 (amended): for every `GetAllTodos` request with no query parameters,
the filter passed to the document store contains `completed = false` and no
due condition at all (the absent `due` parameter defaults to `'all'`, which
removes the date filter), so the response contains exactly the todos that
are not completed, regardless of due date. -/
theorem C1_no_params_filter (now : Int) (store : List Todo) :
    buildGetAllTodosConditions none none now =
      .ok { completed := some false, due := none, listId := none } ∧
    TodoController.GetAllTodos none none now store =
      .ok ((store.filter fun t => t.completed == false).length,
           store.filter fun t => t.completed == false) := by
  have hmatch : TodoConditions.matches
      { completed := some false, due := none, listId := none } =
      fun t => t.completed == false := by
    funext t
    simp [TodoConditions.matches]
  refine ⟨rfl, ?_⟩
  show Except.ok _ = _
  rw [hmatch]

/-! ### Claim C2 -/

/-- C2: the code contradicts its own test suite on the 404 message.  For a
well-formed but unmatched id, each of `UpdateTodo`, `CompleteTodo`,
`UncompleteTodo` and `DeleteTodo` responds 404 with the message
`Todo with ID <id> is not found!`, which differs from the template
`Cannot <action>, no todo whose ID is <id> found!` asserted by the
repository's tests (and by the claim) for every one of the four actions. -/
theorem C2_notfound_message_divergence :
    TodoController.UpdateTodo ⟨"cccccccccccccccccccccccc"⟩
      "aaaaaaaaaaaaaaaaaaaaaaaa" none "Install MySQL" none none 0 (some 1) [] =
      .error ⟨404, "Todo with ID aaaaaaaaaaaaaaaaaaaaaaaa is not found!"⟩ ∧
    TodoController.CompleteTodo ⟨"cccccccccccccccccccccccc"⟩
      "aaaaaaaaaaaaaaaaaaaaaaaa" [] =
      .error ⟨404, "Todo with ID aaaaaaaaaaaaaaaaaaaaaaaa is not found!"⟩ ∧
    TodoController.UncompleteTodo ⟨"cccccccccccccccccccccccc"⟩
      "aaaaaaaaaaaaaaaaaaaaaaaa" [] =
      .error ⟨404, "Todo with ID aaaaaaaaaaaaaaaaaaaaaaaa is not found!"⟩ ∧
    TodoController.DeleteTodo ⟨"cccccccccccccccccccccccc"⟩
      "aaaaaaaaaaaaaaaaaaaaaaaa" [] =
      .error ⟨404, "Todo with ID aaaaaaaaaaaaaaaaaaaaaaaa is not found!"⟩ ∧
    todoNotFoundMessage "aaaaaaaaaaaaaaaaaaaaaaaa" ≠
      "Cannot update, no todo whose ID is aaaaaaaaaaaaaaaaaaaaaaaa found!" ∧
    todoNotFoundMessage "aaaaaaaaaaaaaaaaaaaaaaaa" ≠
      "Cannot complete, no todo whose ID is aaaaaaaaaaaaaaaaaaaaaaaa found!" ∧
    todoNotFoundMessage "aaaaaaaaaaaaaaaaaaaaaaaa" ≠
      "Cannot uncomplete, no todo whose ID is aaaaaaaaaaaaaaaaaaaaaaaa found!" ∧
    todoNotFoundMessage "aaaaaaaaaaaaaaaaaaaaaaaa" ≠
      "Cannot delete, no todo whose ID is aaaaaaaaaaaaaaaaaaaaaaaa found!" := by
  decide

/-! ### Claim C3 -/

/-- C3 counterexample: the upper bound of the day range is INCLUSIVE, not
exclusive.  For `due=01-02-2021`, a todo due exactly at
`startOfDay + oneDay` (midnight beginning 2021-01-03, which a half-open
range `[due, due+1)` would exclude) is matched and returned, because the
code uses `$lte` for the upper bound. -/
theorem C3_counterexample :
    parseMMDDYYYY "01-02-2021" = some (1, 2, 2021) ∧
    (1609632000000 : Int) = startOfDayMillis 1 2 2021 + oneDayMillis ∧
    TodoController.GetAllTodos none (some "01-02-2021") 0
      [{ _id := "aaaaaaaaaaaaaaaaaaaaaaaa", userId := "bbbbbbbbbbbbbbbbbbbbbbbb",
         listId := none, name := "boundary", notes := none, url := none,
         due := 1609632000000, priority := 0, completed := false }] =
      .ok (1,
        [{ _id := "aaaaaaaaaaaaaaaaaaaaaaaa", userId := "bbbbbbbbbbbbbbbbbbbbbbbb",
           listId := none, name := "boundary", notes := none, url := none,
           due := 1609632000000, priority := 0, completed := false }]) := by
  decide

/-- C3 (amended): for every `GetAllTodos` request whose `due` parameter is
neither empty/absent nor `'all'`: if the value parses as an `MM-DD-YYYY`
date, the filter restricts `due` to the CLOSED day range
`[startOfDay, startOfDay + 1 day]` — both the lower bound (`$gte`) and the
upper bound (`$lte`, i.e. due+1 day) inclusive; otherwise the request fails
with status 400 (`Invalid due option!`). -/
theorem C3_due_range (s : String) (now : Int) :
    (∀ m d y, parseMMDDYYYY s = some (m, d, y) →
      buildGetAllTodosConditions none (some s) now =
        .ok { completed := some false,
              due := some (.range (startOfDayMillis m d y)
                                  (startOfDayMillis m d y + oneDayMillis)),
              listId := none } ∧
      ∀ x : Int, (DueCond.range (startOfDayMillis m d y)
            (startOfDayMillis m d y + oneDayMillis)).matches x =
          (decide (startOfDayMillis m d y ≤ x) &&
           decide (x ≤ startOfDayMillis m d y + oneDayMillis))) ∧
    (parseMMDDYYYY s = none → s ≠ "all" → s ≠ "" →
      buildGetAllTodosConditions none (some s) now =
        .error ⟨400, "Invalid due option!"⟩) := by
  constructor
  · intro m d y hp
    have hne : s ≠ "" := by
      intro h
      rw [h] at hp
      exact Option.noConfusion ((by decide : parseMMDDYYYY "" = none) ▸ hp)
    have hall : s ≠ "all" := by
      intro h
      rw [h] at hp
      exact Option.noConfusion ((by decide : parseMMDDYYYY "all" = none) ▸ hp)
    refine ⟨?_, fun x => rfl⟩
    simp only [buildGetAllTodosConditions, queryOrNull, dueOrAll, if_neg hne,
      pure_bind]
    rw [if_neg hall, hp]
    rfl
  · intro hp hall hne
    simp only [buildGetAllTodosConditions, queryOrNull, dueOrAll, if_neg hne,
      pure_bind]
    rw [if_neg hall, hp]
    rfl

/-- C3 witness: the amended theorem applied at the concrete date
`01-02-2021` (filter carries the closed range starting 2021-01-02) and at
the malformed value `junk` (400). -/
theorem C3_witness :
    buildGetAllTodosConditions none (some "01-02-2021") 0 =
      .ok { completed := some false,
            due := some (.range (startOfDayMillis 1 2 2021)
                                (startOfDayMillis 1 2 2021 + oneDayMillis)),
            listId := none } ∧
    buildGetAllTodosConditions none (some "junk") 0 =
      .error ⟨400, "Invalid due option!"⟩ := by
  constructor
  · exact ((C3_due_range "01-02-2021" 0).1 1 2 2021 (by decide)).1
  · exact (C3_due_range "junk" 0).2 (by decide) (by decide) (by decide)

/-! ### Claim C4 -/

/-- C4: every by-id todo mutation (`CompleteTodo`, `UncompleteTodo`,
`UpdateTodoPriority`, `UpdateTodoList`, `DeleteTodo`) sends a
find-and-modify filter containing only the `_id` condition and no `userId`
condition, so a document matches the filter exactly when its `_id` equals
the requested id, and the whole outcome of each operation is identical for
any two requesting users. -/
theorem C4_mutations_user_independent (_id : String) (u₁ u₂ : ReqUser)
    (store : List Todo) (listId : Option String) (priority : Option Nat) :
    CompleteTodoFilter _id = ⟨_id, none⟩ ∧
    UncompleteTodoFilter _id = ⟨_id, none⟩ ∧
    UpdateTodoPriorityFilter _id = ⟨_id, none⟩ ∧
    UpdateTodoListFilter _id = ⟨_id, none⟩ ∧
    DeleteTodoFilter _id = ⟨_id, none⟩ ∧
    (∀ t : Todo, (⟨_id, none⟩ : TodoMutationFilter).matches t = (t._id == _id)) ∧
    TodoController.CompleteTodo u₁ _id store =
      TodoController.CompleteTodo u₂ _id store ∧
    TodoController.UncompleteTodo u₁ _id store =
      TodoController.UncompleteTodo u₂ _id store ∧
    TodoController.UpdateTodoPriority u₁ _id priority store =
      TodoController.UpdateTodoPriority u₂ _id priority store ∧
    TodoController.UpdateTodoList u₁ _id listId store =
      TodoController.UpdateTodoList u₂ _id listId store ∧
    TodoController.DeleteTodo u₁ _id store =
      TodoController.DeleteTodo u₂ _id store := by
  refine ⟨rfl, rfl, rfl, rfl, rfl, fun t => ?_, rfl, rfl, rfl, rfl, rfl⟩
  simp [TodoMutationFilter.matches]

/-! ### Claim C5 -/

/-- C5: `CompleteTodo` unconditionally sets `completed := true` on the
matched todo and `UncompleteTodo` unconditionally sets
`completed := false`; a successful completion answers 200 with
`completed = true`, re-running `CompleteTodo` on the resulting store
returns the very same response and store (idempotence), and completion
succeeds with 200 and `completed = true` whenever a todo with the
requested id exists — in particular also when its `completed` flag is
already `true`. -/
theorem C5_complete_uncomplete (u : ReqUser) (_id : String)
    (store : List Todo) :
    (∀ r store', TodoController.CompleteTodo u _id store = .ok (r, store') →
      r.status = 200 ∧ r.todo.completed = true ∧
      TodoController.CompleteTodo u _id store' = .ok (r, store')) ∧
    (∀ r store', TodoController.UncompleteTodo u _id store = .ok (r, store') →
      r.status = 200 ∧ r.todo.completed = false) ∧
    (isValidObjectId _id = true → (∃ t ∈ store, t._id == _id) →
      ∃ r store', TodoController.CompleteTodo u _id store = .ok (r, store') ∧
        r.status = 200 ∧ r.todo.completed = true) := by
  refine ⟨?_, ?_, ?_⟩
  · intro r store' h
    simp only [TodoController.CompleteTodo] at h
    by_cases hv : (TodoValidator.Id _id).error = true
    · rw [if_pos hv] at h
      exact Except.noConfusion h
    · rw [if_neg hv] at h
      rcases heq : findOneAndUpdate (CompleteTodoFilter _id)
          (fun t => { t with completed := true }) store with ⟨o, s⟩
      rw [heq] at h
      cases o with
      | none => exact Except.noConfusion h
      | some t =>
        injection h with h'
        injection h' with h1 h2
        subst h1
        subst h2
        obtain ⟨t₀, _, _, ht, _⟩ := findOneAndUpdate_some_mem _ _ store t s heq
        refine ⟨rfl, by rw [ht], ?_⟩
        have hidem := findOneAndUpdate_complete_idem _ store t s heq
        simp only [TodoController.CompleteTodo, if_neg hv, hidem]
  · intro r store' h
    simp only [TodoController.UncompleteTodo] at h
    by_cases hv : (TodoValidator.Id _id).error = true
    · rw [if_pos hv] at h
      exact Except.noConfusion h
    · rw [if_neg hv] at h
      rcases heq : findOneAndUpdate (UncompleteTodoFilter _id)
          (fun t => { t with completed := false }) store with ⟨o, s⟩
      rw [heq] at h
      cases o with
      | none => exact Except.noConfusion h
      | some t =>
        injection h with h'
        injection h' with h1 h2
        subst h1
        subst h2
        obtain ⟨t₀, _, _, ht, _⟩ := findOneAndUpdate_some_mem _ _ store t s heq
        exact ⟨rfl, by rw [ht]⟩
  · intro hv hex
    obtain ⟨t, htmem, htid⟩ := hex
    obtain ⟨t', store', heq⟩ := findOneAndUpdate_of_mem (CompleteTodoFilter _id)
      (fun t => { t with completed := true }) store
      ⟨t, htmem, by simp [CompleteTodoFilter, TodoMutationFilter.matches, htid]⟩
    obtain ⟨t₀, _, _, ht, _⟩ := findOneAndUpdate_some_mem _ _ store t' store' heq
    have hverr : (TodoValidator.Id _id).error = false := by
      simp [TodoValidator.Id, hv, vOk]
    refine ⟨⟨200, "Completed \"" ++ t'.name ++ "\"", t'⟩, store', ?_, rfl, by rw [ht]⟩
    simp only [TodoController.CompleteTodo, hverr, if_false, heq,
      Bool.false_eq_true]

/-- C5 witness: completing an already-completed todo (a store whose only
todo has `completed = true`) still succeeds with 200 and `completed = true`. -/
theorem C5_witness : ∃ r store',
    TodoController.CompleteTodo ⟨"u"⟩ "aaaaaaaaaaaaaaaaaaaaaaaa"
      [{ _id := "aaaaaaaaaaaaaaaaaaaaaaaa", userId := "bbbbbbbbbbbbbbbbbbbbbbbb",
         listId := none, name := "done", notes := none, url := none,
         due := 0, priority := 0, completed := true }] = .ok (r, store') ∧
    r.status = 200 ∧ r.todo.completed = true := by
  refine (C5_complete_uncomplete ⟨"u"⟩ "aaaaaaaaaaaaaaaaaaaaaaaa" _).2.2
    (by decide) ?_
  exact ⟨_, List.mem_cons_self _ _, by decide⟩

/-! ### List-store lemmas -/

/-- When no stored list matches the filter, `listFindOneAndUpdate` returns
`none` and leaves the store unchanged. -/
theorem listFindOneAndUpdate_none (f : ListMutationFilter)
    (g : IListDocument → IListDocument) :
    ∀ (store : List IListDocument), (∀ l ∈ store, f.matches l = false) →
      listFindOneAndUpdate f g store = (none, store)
  | [], _ => rfl
  | l₀ :: ls, h => by
    rw [listFindOneAndUpdate,
      if_neg (by simp [h l₀ (List.mem_cons_self _ _)]),
      listFindOneAndUpdate_none f g ls
        (fun l hl => h l (List.mem_cons_of_mem _ hl))]

/-- When no stored list matches the filter, `listFindOneAndDelete` returns
`none` and leaves the store unchanged. -/
theorem listFindOneAndDelete_none (f : ListMutationFilter) :
    ∀ (store : List IListDocument), (∀ l ∈ store, f.matches l = false) →
      listFindOneAndDelete f store = (none, store)
  | [], _ => rfl
  | l₀ :: ls, h => by
    rw [listFindOneAndDelete,
      if_neg (by simp [h l₀ (List.mem_cons_self _ _)]),
      listFindOneAndDelete_none f ls
        (fun l hl => h l (List.mem_cons_of_mem _ hl))]

/-- Characterization of a successful `listFindOneAndUpdate`: the returned
document is the update of a matching member of the store. -/
theorem listFindOneAndUpdate_some_mem (f : ListMutationFilter)
    (g : IListDocument → IListDocument) :
    ∀ (store : List IListDocument) (l : IListDocument)
      (store' : List IListDocument),
      listFindOneAndUpdate f g store = (some l, store') →
      ∃ l₀, l₀ ∈ store ∧ f.matches l₀ = true ∧ l = g l₀
  | [], l, store', h => by simp [listFindOneAndUpdate] at h
  | l₀ :: ls, l, store', h => by
    by_cases hm : f.matches l₀
    · rw [listFindOneAndUpdate, if_pos hm] at h
      injection h with h1 h2
      injection h1 with h1
      exact ⟨l₀, List.mem_cons_self _ _, hm, h1.symm⟩
    · rw [listFindOneAndUpdate, if_neg hm] at h
      injection h with h1 h2
      obtain ⟨l₁, hl₁, hml₁, hgl₁⟩ :=
        listFindOneAndUpdate_some_mem f g ls l
          (listFindOneAndUpdate f g ls).2 (by rw [← h1])
      exact ⟨l₁, List.mem_cons_of_mem _ hl₁, hml₁, hgl₁⟩

/-- Characterization of a successful `listFindOneAndDelete`: the returned
document is a matching member of the store. -/
theorem listFindOneAndDelete_some_mem (f : ListMutationFilter) :
    ∀ (store : List IListDocument) (l : IListDocument)
      (store' : List IListDocument),
      listFindOneAndDelete f store = (some l, store') →
      l ∈ store ∧ f.matches l = true
  | [], l, store', h => by simp [listFindOneAndDelete] at h
  | l₀ :: ls, l, store', h => by
    by_cases hm : f.matches l₀
    · rw [listFindOneAndDelete, if_pos hm] at h
      injection h with h1 h2
      injection h1 with h1
      exact ⟨h1 ▸ List.mem_cons_self _ _, h1 ▸ hm⟩
    · rw [listFindOneAndDelete, if_neg hm] at h
      injection h with h1 h2
      obtain ⟨hl₁, hml₁⟩ :=
        listFindOneAndDelete_some_mem f ls l
          (listFindOneAndDelete f ls).2 (by rw [← h1])
      exact ⟨List.mem_cons_of_mem _ hl₁, hml₁⟩

/-- Every document in the sort step's output is in its input. -/
theorem mem_sortByDue (s : Int) (l : List IListDocument) (x : IListDocument)
    (h : x ∈ sortByDue s l) : x ∈ l := by
  unfold sortByDue at h
  split at h
  · exact (List.perm_insertionSort dueDesc l).mem_iff.mp h
  · exact h

/-- Every document returned by a `find` with options passed the filter. -/
theorem mem_listFind (cond : IListDocument → Bool) (opts : QueryOptions)
    (store : List IListDocument) (x : IListDocument)
    (h : x ∈ listFind cond opts store) : x ∈ store.filter cond := by
  unfold listFind at h
  exact mem_sortByDue _ _ _
    (((List.take_sublist _ _).trans (List.drop_sublist _ _)).mem h)

/-! ### Claim C6 -/

/-- C6: every list operation that reads or mutates stored lists scopes its
filter by the authenticated user's id in addition to any `_id` condition:
`GetAllLists` only returns lists owned by the requester; the `UpdateList`
and `DeleteList` filters require both `_id` and `userId` to match; a
successful update or delete always concerns a list owned by the requester;
and when the list with the requested id is owned by a different user
(no stored list matches both conditions), the operation fails with 404 and
the not-found message, leaving the store untouched. -/
theorem C6_list_ops_scoped (u : ReqUser) (_id name color : String)
    (qp : List (String × String)) (store : List IListDocument) :
    (∀ l ∈ (ListController.GetAllLists u qp store).2, l.userId = u._id) ∧
    (∀ l : IListDocument, (UpdateListFilter _id u._id).matches l =
      (l._id == _id && l.userId == u._id)) ∧
    (∀ l : IListDocument, (DeleteListFilter _id u._id).matches l =
      (l._id == _id && l.userId == u._id)) ∧
    (∀ r store', ListController.UpdateList u _id name color store =
      .ok (r, store') → r.list.userId = u._id) ∧
    (∀ r store', ListController.DeleteList u _id store = .ok (r, store') →
      r.list.userId = u._id) ∧
    (allValid [ListValidator.Id _id, ListValidator.UserId u._id,
        ListValidator.Name name, ListValidator.Color color] = true →
      (∀ l ∈ store, ¬(l._id = _id ∧ l.userId = u._id)) →
      ListController.UpdateList u _id name color store =
        .error ⟨404, "List with ID " ++ _id ++ " is not found!"⟩) ∧
    ((ListValidator.Id _id).error = false →
      (∀ l ∈ store, ¬(l._id = _id ∧ l.userId = u._id)) →
      ListController.DeleteList u _id store =
        .error ⟨404, "List with ID " ++ _id ++ " is not found!"⟩) := by
  have hnomatch : (∀ l ∈ store, ¬(l._id = _id ∧ l.userId = u._id)) →
      ∀ l ∈ store, (⟨_id, u._id⟩ : ListMutationFilter).matches l = false := by
    intro hno l hl
    cases hm : (⟨_id, u._id⟩ : ListMutationFilter).matches l
    · rfl
    · simp only [ListMutationFilter.matches, Bool.and_eq_true, beq_iff_eq] at hm
      exact absurd hm (hno l hl)
  refine ⟨?_, fun l => rfl, fun l => rfl, ?_, ?_, ?_, ?_⟩
  · intro l hl
    have hf := mem_listFind _ _ _ _ hl
    have := (List.mem_filter.mp hf).2
    exact beq_iff_eq.mp this
  · intro r store' h
    simp only [ListController.UpdateList] at h
    by_cases hv : allValid [ListValidator.Id _id, ListValidator.UserId u._id,
        ListValidator.Name name, ListValidator.Color color] = true
    · rw [if_pos hv] at h
      rcases heq : listFindOneAndUpdate (UpdateListFilter _id u._id)
          (fun l => { l with name := name, color := color }) store with ⟨o, s⟩
      rw [heq] at h
      cases o with
      | none => exact Except.noConfusion h
      | some l =>
        injection h with h'
        injection h' with h1 h2
        subst h1
        obtain ⟨l₀, _, hml₀, hgl₀⟩ :=
          listFindOneAndUpdate_some_mem _ _ store l s heq
        simp only [ListMutationFilter.matches, Bool.and_eq_true,
          beq_iff_eq] at hml₀
        rw [hgl₀]
        exact hml₀.2
    · rw [if_neg hv] at h
      exact Except.noConfusion h
  · intro r store' h
    simp only [ListController.DeleteList] at h
    by_cases hv : (ListValidator.Id _id).error = true
    · rw [if_pos hv] at h
      exact Except.noConfusion h
    · rw [if_neg hv] at h
      rcases heq : listFindOneAndDelete (DeleteListFilter _id u._id) store
        with ⟨o, s⟩
      rw [heq] at h
      cases o with
      | none => exact Except.noConfusion h
      | some l =>
        injection h with h'
        injection h' with h1 h2
        subst h1
        obtain ⟨_, hml⟩ := listFindOneAndDelete_some_mem _ store l s heq
        simp only [ListMutationFilter.matches, Bool.and_eq_true,
          beq_iff_eq] at hml
        exact hml.2
  · intro hv hno
    have h := listFindOneAndUpdate_none (UpdateListFilter _id u._id)
      (fun l => { l with name := name, color := color }) store (hnomatch hno)
    simp only [ListController.UpdateList, if_pos hv, h]
  · intro hv hno
    have h := listFindOneAndDelete_none (DeleteListFilter _id u._id) store
      (hnomatch hno)
    simp only [ListController.DeleteList, hv, h, Bool.false_eq_true, if_false]

/-- C6 witness: with a stored list whose id matches the request but whose
owner is a different user, both `UpdateList` and `DeleteList` answer 404. -/
theorem C6_witness :
    ListController.UpdateList ⟨"cccccccccccccccccccccccc"⟩
      "aaaaaaaaaaaaaaaaaaaaaaaa" "groceries" "red"
      [{ _id := "aaaaaaaaaaaaaaaaaaaaaaaa", userId := "dddddddddddddddddddddddd",
         name := "other", color := "blue", due := 0 }] =
      .error ⟨404, "List with ID aaaaaaaaaaaaaaaaaaaaaaaa is not found!"⟩ ∧
    ListController.DeleteList ⟨"cccccccccccccccccccccccc"⟩
      "aaaaaaaaaaaaaaaaaaaaaaaa"
      [{ _id := "aaaaaaaaaaaaaaaaaaaaaaaa", userId := "dddddddddddddddddddddddd",
         name := "other", color := "blue", due := 0 }] =
      .error ⟨404, "List with ID aaaaaaaaaaaaaaaaaaaaaaaa is not found!"⟩ := by
  constructor
  · exact (C6_list_ops_scoped ⟨"cccccccccccccccccccccccc"⟩
      "aaaaaaaaaaaaaaaaaaaaaaaa" "groceries" "red" [] _).2.2.2.2.2.1
      (by decide) (by decide)
  · exact (C6_list_ops_scoped ⟨"cccccccccccccccccccccccc"⟩
      "aaaaaaaaaaaaaaaaaaaaaaaa" "groceries" "red" [] _).2.2.2.2.2.2
      (by decide) (by decide)

/-! ### Claim C7 -/

/-- C7: `GetAllLists` always queries with the fixed options
`limit = 100`, `skip = 0` and a descending sort on `due`; its result does
not depend on any request query parameter, the returned page is sorted by
`due` descending, and it never contains more than 100 lists. -/
theorem C7_lists_paging_fixed (u : ReqUser) (qp qp' : List (String × String))
    (store : List IListDocument) :
    getAllListsOptions.limit = 100 ∧ getAllListsOptions.skip = 0 ∧
    getAllListsOptions.sortDue = -1 ∧
    ListController.GetAllLists u qp store =
      ListController.GetAllLists u qp' store ∧
    (ListController.GetAllLists u qp store).2.length ≤ 100 ∧
    List.Pairwise dueDesc (ListController.GetAllLists u qp store).2 := by
  have hsort : sortByDue (-1) (store.filter fun l => l.userId == u._id) =
      List.insertionSort dueDesc (store.filter fun l => l.userId == u._id) := by
    simp [sortByDue]
  refine ⟨rfl, rfl, rfl, rfl, ?_, ?_⟩
  · show ((((sortByDue _ _).drop _).take _).length) ≤ 100
    exact List.length_take_le _ _
  · show List.Pairwise dueDesc
      (((sortByDue (-1) (store.filter fun l => l.userId == u._id)).drop 0).take 100)
    have hs := List.sorted_insertionSort dueDesc
      (store.filter fun l => l.userId == u._id)
    rw [hsort]
    exact hs.sublist ((List.take_sublist _ _).trans (List.drop_sublist _ _))

/-! ### Claim C8 -/

/-- Finding a user after the token-list update returns the same user with
the replaced token list (the update only touches `refreshTokens`, so the
first username match is unchanged). -/
theorem findOneUser_updateOne (name : String) (tokens : List String) :
    ∀ (users : List IUser) (u : IUser), findOneUser name users = some u →
      findOneUser name (updateOneRefreshTokens name tokens users) =
        some { u with refreshTokens := tokens }
  | [], u, h => by simp [findOneUser] at h
  | u₀ :: us, u, h => by
    by_cases hm : u₀.username == name
    · rw [findOneUser, if_pos hm] at h
      injection h with h
      subst h
      simp [updateOneRefreshTokens, findOneUser, hm]
    · rw [findOneUser, if_neg hm] at h
      rw [updateOneRefreshTokens, if_neg hm, findOneUser, if_neg hm]
      exact findOneUser_updateOne name tokens us u h

/-- C8: a successful token issuance for an existing user leaves the user's
stored `refreshTokens` equal to the previous list with the newly signed
refresh token appended at the end; every previously stored token keeps its
position and the length grows by exactly one. -/
theorem C8_refresh_tokens_append (sign : String → String → String)
    (accessSecret refreshSecret : String) (userData u : IUser)
    (users : List IUser) (tk : UserTokens) (users' : List IUser)
    (hfind : findOneUser userData.username users = some u)
    (hrun : generateUserTokens sign accessSecret refreshSecret userData users =
      .ok (tk, users')) :
    findOneUser userData.username users' =
      some { u with refreshTokens := u.refreshTokens ++ [tk.refreshToken] } ∧
    (∀ i, i < u.refreshTokens.length →
      (u.refreshTokens ++ [tk.refreshToken])[i]? = u.refreshTokens[i]?) ∧
    (u.refreshTokens ++ [tk.refreshToken]).length =
      u.refreshTokens.length + 1 := by
  simp only [generateUserTokens, hfind] at hrun
  injection hrun with hrun
  injection hrun with h1 h2
  subst h1
  subst h2
  refine ⟨findOneUser_updateOne _ _ users u hfind, ?_, by simp⟩
  intro i hi
  exact List.getElem?_append_left hi

/-- C8 witness: issuing tokens for the stored user `jo` (one prior token
`t1`) yields a store whose `jo` entry holds `["t1"] ++ [refresh]`, with the
prior token still at position 0 and the length grown to 2. -/
theorem C8_witness :
    findOneUser "jo"
      [{ username := "jo", firstName := "a", lastName := "b", email := "e",
         refreshTokens := ["t1", "jo.rs"] }] =
      some { username := "jo", firstName := "a", lastName := "b", email := "e",
             refreshTokens := ["t1"] ++ ["jo.rs"] } ∧
    (∀ i, i < (["t1"] : List String).length →
      ((["t1"] : List String) ++ ["jo.rs"])[i]? = (["t1"] : List String)[i]?) ∧
    ((["t1"] : List String) ++ ["jo.rs"]).length =
      (["t1"] : List String).length + 1 :=
  C8_refresh_tokens_append (fun p s => p ++ "." ++ s) "as" "rs"
    ⟨"jo", "a", "b", "e", ["t1"]⟩ ⟨"jo", "a", "b", "e", ["t1"]⟩
    [⟨"jo", "a", "b", "e", ["t1"]⟩] ⟨"a|b|jo|e.as", "jo.rs"⟩
    [⟨"jo", "a", "b", "e", ["t1", "jo.rs"]⟩] (by decide) (by decide)

/-! ### Claim C9 -/

/-- C9: every successful `UpdateTodo` overwrites the stored todo's `userId`
with the authenticated requester's id: the find-and-modify filter carries
only the `_id` condition, the matched pre-state todo is constrained only
through its `_id`, and the returned (and stored) todo's `userId` equals the
requester's — so updating a todo previously owned by a different user
transfers its ownership to the requester. -/
theorem C9_update_transfers_ownership (user : ReqUser) (_id : String)
    (listId : Option String) (name : String) (notes url : Option String)
    (due : Int) (priority : Option Nat) (store : List Todo)
    (r : TodoResponse) (store' : List Todo)
    (h : TodoController.UpdateTodo user _id listId name notes url due priority
      store = .ok (r, store')) :
    UpdateTodoFilter _id = ⟨_id, none⟩ ∧
    r.todo.userId = user._id ∧
    r.todo ∈ store' ∧
    ∃ t₀, t₀ ∈ store ∧ t₀._id = _id ∧ r.todo._id = t₀._id := by
  simp only [TodoController.UpdateTodo] at h
  split at h
  · split at h
    · exact Except.noConfusion h
    · rename_i t s heq
      injection h with h'
      injection h' with h1 h2
      subst h1
      subst h2
      obtain ⟨t₀, ht₀mem, ht₀match, ht, htmem'⟩ :=
        findOneAndUpdate_some_mem _ _ store t s heq
      refine ⟨rfl, ?_, htmem', t₀, ht₀mem, ?_, ?_⟩
      · rw [ht]
      · simpa [UpdateTodoFilter, TodoMutationFilter.matches] using ht₀match
      · rw [ht]
  · exact Except.noConfusion h

/-- C9 witness: a todo owned by user `dddd…` is updated by requester
`cccc…`; the run succeeds and the stored todo's owner becomes `cccc…`. -/
theorem C9_witness :
    TodoController.UpdateTodo ⟨"cccccccccccccccccccccccc"⟩
      "aaaaaaaaaaaaaaaaaaaaaaaa" none "new name" none none 7 (some 1)
      [{ _id := "aaaaaaaaaaaaaaaaaaaaaaaa", userId := "dddddddddddddddddddddddd",
         listId := none, name := "old", notes := none, url := none,
         due := 5, priority := 2, completed := false }] =
      .ok (⟨200, "Updated \"new name\"",
        { _id := "aaaaaaaaaaaaaaaaaaaaaaaa", userId := "cccccccccccccccccccccccc",
          listId := none, name := "new name", notes := none, url := none,
          due := 7, priority := 1, completed := false }⟩,
        [{ _id := "aaaaaaaaaaaaaaaaaaaaaaaa", userId := "cccccccccccccccccccccccc",
           listId := none, name := "new name", notes := none, url := none,
           due := 7, priority := 1, completed := false }]) ∧
    (⟨200, "Updated \"new name\"",
      { _id := "aaaaaaaaaaaaaaaaaaaaaaaa", userId := "cccccccccccccccccccccccc",
        listId := none, name := "new name", notes := none, url := none,
        due := 7, priority := 1, completed := false }⟩ : TodoResponse).todo.userId =
      "cccccccccccccccccccccccc" := by
  constructor
  · decide
  · exact (C9_update_transfers_ownership ⟨"cccccccccccccccccccccccc"⟩
      "aaaaaaaaaaaaaaaaaaaaaaaa" none "new name" none none 7 (some 1)
      [{ _id := "aaaaaaaaaaaaaaaaaaaaaaaa", userId := "dddddddddddddddddddddddd",
         listId := none, name := "old", notes := none, url := none,
         due := 5, priority := 2, completed := false }]
      ⟨200, "Updated \"new name\"",
        { _id := "aaaaaaaaaaaaaaaaaaaaaaaa", userId := "cccccccccccccccccccccccc",
          listId := none, name := "new name", notes := none, url := none,
          due := 7, priority := 1, completed := false }⟩
      [{ _id := "aaaaaaaaaaaaaaaaaaaaaaaa", userId := "cccccccccccccccccccccccc",
         listId := none, name := "new name", notes := none, url := none,
         due := 7, priority := 1, completed := false }] (by decide)).2.1

/-! ### Claim C10 -/

/-- C10: `UpdateTodoPriority` rejects every falsy body priority — absent
(`none`) or the number `0`, which is exactly the `NONE` member of the
priority enum — with 400 `Priority cannot be empty!` and no store write; an
absent priority is indistinguishable from an explicit `0`; and a successful
run can only have set a non-`NONE` priority. -/
theorem C10_priority_falsy (u : ReqUser) (_id : String) (store : List Todo) :
    TodoController.UpdateTodoPriority u _id none store =
      TodoController.UpdateTodoPriority u _id (some 0) store ∧
    TodoPriority.NONE ∈ TodoPriority.values ∧
    (isValidObjectId _id = true →
      TodoController.UpdateTodoPriority u _id none store =
        .error ⟨400, "Priority cannot be empty!"⟩) ∧
    (∀ p r store', TodoController.UpdateTodoPriority u _id (some p) store =
      .ok (r, store') →
      p ≠ TodoPriority.NONE ∧ r.todo.priority = p ∧
      r.todo.priority ≠ TodoPriority.NONE) := by
  refine ⟨?_, by decide, ?_, ?_⟩
  · simp only [TodoController.UpdateTodoPriority]
    by_cases hv : (TodoValidator.Id _id).error = true
    · rw [if_pos hv, if_pos hv]
    · rw [if_neg hv, if_neg hv]
      rfl
  · intro hv
    have hverr : (TodoValidator.Id _id).error = false := by
      simp [TodoValidator.Id, hv, vOk]
    simp only [TodoController.UpdateTodoPriority, hverr, Bool.false_eq_true,
      if_false]
    rfl
  · intro p r store' h
    simp only [TodoController.UpdateTodoPriority] at h
    split at h
    · exact Except.noConfusion h
    · split at h
      · exact Except.noConfusion h
      · rename_i hfalsy
        have hp : p ≠ TodoPriority.NONE := by
          intro hp0
          exact hfalsy (by simp [jsFalsyNat, hp0, TodoPriority.NONE])
        split at h
        · exact Except.noConfusion h
        · split at h
          · exact Except.noConfusion h
          · rename_i t s heq
            injection h with h'
            injection h' with h1 h2
            subst h1
            obtain ⟨t₀, _, _, ht, _⟩ :=
              findOneAndUpdate_some_mem _ _ store t s heq
            exact ⟨hp, by rw [ht], by rw [ht]; exact hp⟩

/-- C10 witness: with a valid id, an absent priority and the explicit `0`
both answer 400 `Priority cannot be empty!`, and a successful run with
priority `2` stored a non-`NONE` priority. -/
theorem C10_witness :
    TodoController.UpdateTodoPriority ⟨"u"⟩ "aaaaaaaaaaaaaaaaaaaaaaaa" none [] =
      .error ⟨400, "Priority cannot be empty!"⟩ ∧
    (2 ≠ TodoPriority.NONE ∧
      (⟨200, "Updated \"x\" priority!",
        { _id := "aaaaaaaaaaaaaaaaaaaaaaaa", userId := "bbbbbbbbbbbbbbbbbbbbbbbb",
          listId := none, name := "x", notes := none, url := none,
          due := 0, priority := 2, completed := false }⟩ : TodoResponse).todo.priority
        = 2 ∧
      (⟨200, "Updated \"x\" priority!",
        { _id := "aaaaaaaaaaaaaaaaaaaaaaaa", userId := "bbbbbbbbbbbbbbbbbbbbbbbb",
          listId := none, name := "x", notes := none, url := none,
          due := 0, priority := 2, completed := false }⟩ : TodoResponse).todo.priority
        ≠ TodoPriority.NONE) := by
  constructor
  · exact (C10_priority_falsy ⟨"u"⟩ "aaaaaaaaaaaaaaaaaaaaaaaa" []).2.2.1
      (by decide)
  · exact (C10_priority_falsy ⟨"u"⟩ "aaaaaaaaaaaaaaaaaaaaaaaa"
      [{ _id := "aaaaaaaaaaaaaaaaaaaaaaaa", userId := "bbbbbbbbbbbbbbbbbbbbbbbb",
         listId := none, name := "x", notes := none, url := none,
         due := 0, priority := 0, completed := false }]).2.2.2 2
      ⟨200, "Updated \"x\" priority!",
        { _id := "aaaaaaaaaaaaaaaaaaaaaaaa", userId := "bbbbbbbbbbbbbbbbbbbbbbbb",
          listId := none, name := "x", notes := none, url := none,
          due := 0, priority := 2, completed := false }⟩
      [{ _id := "aaaaaaaaaaaaaaaaaaaaaaaa", userId := "bbbbbbbbbbbbbbbbbbbbbbbb",
         listId := none, name := "x", notes := none, url := none,
         due := 0, priority := 2, completed := false }] (by decide)

end TodoApp
